import Mathlib

/-!
# Verification of the `jogger` span-based logging core

A shallow embedding of `jogger.go` (package `jogger`): the context carrier
(Go `context.Context` with `WithValue`/`Value` chain lookup), the zap-style
logger handle, the `Span` lifecycle (`StartSpan`, `SetTag`, `Finish`) and the
logger resolution `FromContext`.

Modelling conventions:
* Time instants and durations are `Int` nanoseconds; `time.Since(start)` at
  instant `now` is `now - start`.
* `uuid.New().String()` is external nondeterminism: the generated span id is
  passed to `StartSpan` as an explicit argument; its global uniqueness is a
  hypothesis where a claim needs it.
* The error pointer `*error` passed to `Finish` is `Option (Option String)`:
  `none` is a nil pointer, `some none` a pointer to a nil error, and
  `some (some m)` a pointer to a non-nil error whose message is `m`.
* The span mutex serialises tag appends and the snapshot in `Finish`; the
  effect of the lock is modelled by treating each locked critical section as
  one atomic action of an interleaving semantics (see `Interleave` below).
-/

namespace Jogger

/-- Go `type ContextKey string`. -/
abbrev ContextKey := String

/-- Go `RequestIDKey ContextKey = "requestID"`. -/
def RequestIDKey : ContextKey := "requestID"

/-- Go `SpanKey ContextKey = "currentSpan"`. -/
def SpanKey : ContextKey := "currentSpan"

/-- Go `LoggerKey ContextKey = "currentLogger"`. -/
def LoggerKey : ContextKey := "currentLogger"

/-- A zap field value: strings (`zap.String`), durations (`zap.Duration`,
nanoseconds), rendered errors (`zap.Error`), and the opaque values accepted by
`zap.Any` for tags. -/
inductive FieldValue where
  | str (s : String)
  | dur (nanos : Int)
  | err (msg : String)
  | any (v : Nat)
deriving DecidableEq, Repr

/-- A zap structured field: key plus value. -/
structure Field where
  key : String
  value : FieldValue
deriving DecidableEq, Repr

/-- A zap logger handle: the identity of the underlying core/sink plus the
fields bound so far with `With`.  `baseLogger` has core id `0`; any distinct
caller-supplied logger has a different core id. -/
structure Logger where
  core : Nat
  fields : List Field
deriving DecidableEq, Repr

/-- Method `zap.Logger.With`: returns a child logger with the fields appended. -/
def Logger.with (l : Logger) (fs : List Field) : Logger :=
  { l with fields := l.fields ++ fs }

/-- The process-wide default logger built in `init()`. -/
def baseLogger : Logger := { core := 0, fields := [] }

/-- A value stored in the context: the package stores `string`s (request id,
span id) and `*zap.Logger` (logger override); other values can be stored by
callers through `context.WithValue`. -/
inductive GoValue where
  | str (s : String)
  | logger (l : Logger)
  | other (v : Nat)
deriving DecidableEq, Repr

/-- Go `context.Context` restricted to what the package uses: the background
context and `context.WithValue` derivation, forming a parent chain. -/
inductive Context where
  | background
  | withValue (parent : Context) (key : ContextKey) (val : GoValue)
deriving DecidableEq, Repr

/-- Method `ctx.Value(key)`: walk from the most recently derived carrier toward the
root and return the first binding, or `none` when the key is absent. -/
def Context.value : Context → ContextKey → Option GoValue
  | .background, _ => none
  | .withValue parent k v, key => if key = k then some v else parent.value key

/-- Go type assertion `v.(string)` applied to the result of `ctx.Value`:
succeeds exactly when the key is bound to a string. -/
def asString : Option GoValue → Option String
  | some (.str s) => some s
  | _ => none

/-- Go type assertion `v.(*zap.Logger)` applied to the result of
`ctx.Value`. -/
def asLogger : Option GoValue → Option Logger
  | some (.logger l) => some l
  | _ => none

/-- Function `WithRequestID(ctx, requestID)`: derive a carrier binding
`RequestIDKey = requestID`. -/
def WithRequestID (ctx : Context) (requestID : String) : Context :=
  .withValue ctx RequestIDKey (.str requestID)

/-- Function `FromContext(ctx)`: resolve a logger, attaching `requestID` and `span`
fields when the corresponding keys are bound to strings, on top of a bound
logger override when present, else on top of `baseLogger`. -/
def FromContext (ctx : Context) : Logger :=
  let fields : List Field := []
  let fields := match asString (ctx.value RequestIDKey) with
    | some rid => fields ++ [⟨"requestID", .str rid⟩]
    | none => fields
  let fields := match asString (ctx.value SpanKey) with
    | some sp => fields ++ [⟨"span", .str sp⟩]
    | none => fields
  match asLogger (ctx.value LoggerKey) with
  | some l => l.with fields
  | none => baseLogger.with fields

/-- The `Span` struct: bound logger, start instant, accumulated tag fields.
The mutex is not part of the functional state; its effect appears in the
interleaving semantics. -/
structure Span where
  logger : Logger
  start : Int
  fields : List Field
deriving DecidableEq, Repr

/-- Function `StartSpan(ctx, name)`.  The freshly generated uuid `spanID` and the clock
reading `now` are explicit arguments (external nondeterminism).  Mirrors the
source: `requestID, _ := ctx.Value(RequestIDKey).(string)` yields `""` both
when the key is absent and when it is bound to a non-string, and the
`requestID` field is attached only when that string is non-empty. -/
def StartSpan (ctx : Context) (name spanID : String) (now : Int) :
    Span × Context :=
  let requestID := (asString (ctx.value RequestIDKey)).getD ""
  let fields : List Field := [⟨"span", .str name⟩, ⟨"spanID", .str spanID⟩]
  let fields := if requestID ≠ "" then fields ++ [⟨"requestID", .str requestID⟩]
    else fields
  let l := baseLogger.with fields
  let ctx := Context.withValue ctx SpanKey (.str spanID)
  ({ logger := l, start := now, fields := [] }, ctx)

/-- Method `span.SetTag(key, value)`: append one `zap.Any(key, value)` field to the
tag sequence.  In the source this is one mutex-protected critical section, so
it is one atomic state transition here. -/
def Span.setTag (s : Span) (key : String) (value : FieldValue) : Span :=
  { s with fields := s.fields ++ [⟨key, value⟩] }

/-- One second, as `time.Duration` nanoseconds. -/
def second : Int := 1000000000

/-- Log levels used by the package. -/
inductive Level where
  | info
  | warn
  | error
deriving DecidableEq, Repr

/-- One emitted log record: the logger it went through (carrying its bound
fields), the level, the message, and the call-site fields. -/
structure Record where
  logger : Logger
  level : Level
  msg : String
  fields : List Field
deriving DecidableEq, Repr

/-- Result of `Finish`: the span state after the call and the list of records
emitted by the call. -/
structure FinishResult where
  span : Span
  records : List Record
deriving DecidableEq, Repr

/-- Method `span.Finish(err)`.  `err : Option (Option String)` models the `*error`
argument, `now` the instant at which `time.Since(s.start)` is read.  Mirrors
the source line by line: snapshot the tag sequence under the lock into a fresh
slice `fieldsCopy` (in this pure embedding the snapshot is the list value
itself; the appends below extend only the local copy), append the `duration`
field, then classify: non-nil referenced error first, then `elapsed > 1s`,
else success.  Each branch emits exactly one record through `s.logger`. -/
def Span.finish (s : Span) (err : Option (Option String)) (now : Int) :
    FinishResult :=
  let fieldsCopy := s.fields
  let elapsed := now - s.start
  let fieldsCopy := fieldsCopy ++ [⟨"duration", .dur elapsed⟩]
  match err with
  | some (some msg) =>
    let fieldsCopy := fieldsCopy ++ [⟨"error", .err msg⟩]
    ⟨s, [⟨s.logger, .error, "span finished with error", fieldsCopy⟩]⟩
  | _ =>
    if elapsed > 1 * second then
      ⟨s, [⟨s.logger, .warn, "span finished slowly", fieldsCopy⟩]⟩
    else
      ⟨s, [⟨s.logger, .info, "span finished successfully", fieldsCopy⟩]⟩

/-- Condition `err != nil && *err != nil`, as the source tests it. -/
def errRefNonNil : Option (Option String) → Bool
  | some (some _) => true
  | _ => false

/-- All strings bound to `SpanKey` anywhere in the carrier chain (the
`currentSpanID`s of the span's ancestors, shadowed ones included). -/
def Context.spanIDs : Context → List String
  | .background => []
  | .withValue parent k v =>
    (if k = SpanKey then
       match v with
       | .str s => [s]
       | _ => []
     else []) ++ parent.spanIDs

/-- Relation `Interleave2 xs ys out`: `out` is an order-preserving interleaving of the
two action sequences `xs` and `ys`. -/
inductive Interleave2 {α : Type} : List α → List α → List α → Prop where
  | nil : Interleave2 [] [] []
  | left {x : α} {xs ys out : List α} :
      Interleave2 xs ys out → Interleave2 (x :: xs) ys (x :: out)
  | right {y : α} {xs ys out : List α} :
      Interleave2 xs ys out → Interleave2 xs (y :: ys) (y :: out)

/-- Relation `Interleave threads out`: `out` is an order-preserving interleaving of the
action sequences of the N threads.  Because each `SetTag` body runs under the
span's exclusive mutex, a concurrent execution of the callers is exactly some
such interleaving of whole (atomic) appends — never a torn partial entry. -/
inductive Interleave {α : Type} : List (List α) → List α → Prop where
  | nil : Interleave [] []
  | cons {t : List α} {ts : List (List α)} {rest out : List α} :
      Interleave ts rest → Interleave2 t rest out → Interleave (t :: ts) out

/-- Execute a serialized sequence of `SetTag` calls on a span, each appending
one field. -/
def runTags (s : Span) (ops : List Field) : Span :=
  ops.foldl (fun acc f => acc.setTag f.key f.value) s

/-! ## Helper lemmas -/

/-- The state of a span is not changed by `Finish`: the method appends only to
its local copy of the tag slice. -/
lemma finish_span_eq (s : Span) (err : Option (Option String)) (now : Int) :
    (s.finish err now).span = s := by
  rcases err with _ | (_ | m) <;> simp only [Span.finish] <;>
    first
    | rfl
    | (split <;> rfl)

/-- Shape of the emission of `Finish`: exactly one record, through the span's
bound logger, whose fields are the tag snapshot followed by the `duration`
field and then the `error` field exactly when the referenced error is
non-nil. -/
lemma finish_records_shape (s : Span) (err : Option (Option String)) (now : Int) :
    ∃ r rest, (s.finish err now).records = [r] ∧ r.logger = s.logger ∧
      r.fields = s.fields ++ (⟨"duration", FieldValue.dur (now - s.start)⟩ : Field) :: rest ∧
      ((errRefNonNil err = true ∧ ∃ m, rest = [⟨"error", FieldValue.err m⟩]) ∨
       (errRefNonNil err = false ∧ rest = [])) := by
  rcases err with _ | (_ | m)
  · by_cases h : second < now - s.start
    · exact ⟨⟨s.logger, .warn, "span finished slowly",
        s.fields ++ [⟨"duration", .dur (now - s.start)⟩]⟩, [],
        by simp [Span.finish, h], rfl, by simp, Or.inr ⟨rfl, rfl⟩⟩
    · exact ⟨⟨s.logger, .info, "span finished successfully",
        s.fields ++ [⟨"duration", .dur (now - s.start)⟩]⟩, [],
        by simp [Span.finish, h], rfl, by simp, Or.inr ⟨rfl, rfl⟩⟩
  · by_cases h : second < now - s.start
    · exact ⟨⟨s.logger, .warn, "span finished slowly",
        s.fields ++ [⟨"duration", .dur (now - s.start)⟩]⟩, [],
        by simp [Span.finish, h], rfl, by simp, Or.inr ⟨rfl, rfl⟩⟩
    · exact ⟨⟨s.logger, .info, "span finished successfully",
        s.fields ++ [⟨"duration", .dur (now - s.start)⟩]⟩, [],
        by simp [Span.finish, h], rfl, by simp, Or.inr ⟨rfl, rfl⟩⟩
  · exact ⟨⟨s.logger, .error, "span finished with error",
      (s.fields ++ [⟨"duration", .dur (now - s.start)⟩]) ++ [⟨"error", .err m⟩]⟩,
      [⟨"error", FieldValue.err m⟩],
      by simp [Span.finish], rfl, by simp, Or.inl ⟨rfl, m, rfl⟩⟩

/-- A string visible under `SpanKey` is among the chain's bound span ids. -/
lemma value_spanKey_mem (ctx : Context) (a : String)
    (h : ctx.value SpanKey = some (.str a)) : a ∈ ctx.spanIDs := by
  induction ctx with
  | background => simp [Context.value] at h
  | withValue parent k v ih =>
    simp only [Context.value] at h
    by_cases hk : SpanKey = k
    · subst hk
      rw [if_pos rfl] at h
      injection h with h
      subst h
      simp [Context.spanIDs]
    · rw [if_neg hk] at h
      have := ih h
      simp only [Context.spanIDs]
      exact List.mem_append.2 (Or.inr this)

/-- Interleaving two sequences permutes their concatenation. -/
lemma interleave2_perm {α : Type} {xs ys out : List α}
    (h : Interleave2 xs ys out) : List.Perm out (xs ++ ys) := by
  induction h with
  | nil => exact List.Perm.refl _
  | left _ ih => exact List.Perm.cons _ ih
  | right _ ih => exact (List.Perm.cons _ ih).trans List.perm_middle.symm

/-- Interleaving N sequences permutes their flattening. -/
lemma interleave_perm_flatten {α : Type} {ts : List (List α)} {out : List α}
    (h : Interleave ts out) : List.Perm out ts.flatten := by
  induction h with
  | nil => simp
  | cons hrest h2 ih =>
    refine (interleave2_perm h2).trans ?_
    rw [List.flatten_cons]
    exact List.Perm.append_left _ ih

/-- Running a sequence of tag appends changes only the tag sequence, by
appending the ops in order. -/
lemma runTags_eq (s : Span) (ops : List Field) :
    runTags s ops = { s with fields := s.fields ++ ops } := by
  induction ops generalizing s with
  | nil => simp [runTags]
  | cons f ops ih =>
    show runTags (s.setTag f.key f.value) ops = _
    rw [ih]
    simp [Span.setTag]

/-! ## Claim theorems -/

/-- C1: `Finish` classifies first-match in the order error, slow, success: a
non-nil referenced error emits at error level regardless of elapsed time; a
nil error with elapsed strictly greater than one second emits at warn level;
a nil error with elapsed at or below one second emits at info level. -/
theorem finish_classification (s : Span) (err : Option (Option String)) (now : Int) :
    (errRefNonNil err = true →
      (s.finish err now).records.map Record.level = [Level.error]) ∧
    (errRefNonNil err = false → second < now - s.start →
      (s.finish err now).records.map Record.level = [Level.warn]) ∧
    (errRefNonNil err = false → now - s.start ≤ second →
      (s.finish err now).records.map Record.level = [Level.info]) := by
  rcases err with _ | (_ | m)
  · refine ⟨fun h => by simp [errRefNonNil] at h, ?_, ?_⟩
    · intro _ hgt
      simp [Span.finish, hgt]
    · intro _ hle
      simp [Span.finish, not_lt.2 hle]
  · refine ⟨fun h => by simp [errRefNonNil] at h, ?_, ?_⟩
    · intro _ hgt
      simp [Span.finish, hgt]
    · intro _ hle
      simp [Span.finish, not_lt.2 hle]
  · refine ⟨fun _ => by simp [Span.finish], ?_, ?_⟩
    · intro h
      simp [errRefNonNil] at h
    · intro h
      simp [errRefNonNil] at h

/-- Witness for C1 at concrete inputs: an error finish at elapsed 0, a nil
finish at elapsed 1.5s, and a nil-pointee finish at elapsed exactly 1s. -/
theorem finish_classification_witness :
    ((Span.mk baseLogger 0 []).finish (some (some "boom")) 0).records.map Record.level
      = [Level.error] ∧
    ((Span.mk baseLogger 0 []).finish none 1500000000).records.map Record.level
      = [Level.warn] ∧
    ((Span.mk baseLogger 0 []).finish (some none) 1000000000).records.map Record.level
      = [Level.info] :=
  ⟨(finish_classification ⟨baseLogger, 0, []⟩ (some (some "boom")) 0).1 rfl,
   (finish_classification ⟨baseLogger, 0, []⟩ none 1500000000).2.1 rfl (by decide),
   (finish_classification ⟨baseLogger, 0, []⟩ (some none) 1000000000).2.2 rfl (by decide)⟩

/-- C2: every `Finish` call emits exactly one record, through the span's bound
logger; the record's fields are the snapshot of the tag sequence with the
`duration` field (elapsed since `startTime`) appended, and the `duration`
field is present in every emitted record, the error-level one included. -/
theorem finish_one_record_duration (s : Span) (err : Option (Option String)) (now : Int) :
    (s.finish err now).records.length = 1 ∧
    ∃ r rest, (s.finish err now).records = [r] ∧ r.logger = s.logger ∧
      r.fields = s.fields ++ (⟨"duration", FieldValue.dur (now - s.start)⟩ : Field) :: rest ∧
      (⟨"duration", FieldValue.dur (now - s.start)⟩ : Field) ∈ r.fields := by
  obtain ⟨r, rest, hrec, hlog, hfld, _⟩ := finish_records_shape s err now
  refine ⟨by rw [hrec]; rfl, r, rest, hrec, hlog, hfld, ?_⟩
  rw [hfld]
  simp

/-- C3 counterexample: with `requestID` bound to the empty string, the span
logger built by `StartSpan` carries no `requestID` field at all — the claim
that `StartSpan` treats the empty-string binding as present fails. -/
theorem emptyRequestID_counterexample :
    ((StartSpan (WithRequestID Context.background "") "op" "sid-1" 0).1.logger.fields.filter
      (fun f => f.key == "requestID")) = [] := by
  decide

/-- C3 amended: when `requestID` is bound to the empty string, `FromContext`
treats the binding as present and attaches a `requestID` field carrying the
empty value, but `StartSpan` treats it as absent: the span's bound logger gets
exactly the `span` and `spanID` fields and no `requestID` field. -/
theorem emptyRequestID_present_asymmetry (ctx : Context)
    (h : ctx.value RequestIDKey = some (.str "")) (name spanID : String) (now : Int) :
    (⟨"requestID", FieldValue.str ""⟩ : Field) ∈ (FromContext ctx).fields ∧
    (StartSpan ctx name spanID now).1.logger.fields =
      [⟨"span", FieldValue.str name⟩, ⟨"spanID", FieldValue.str spanID⟩] := by
  constructor
  · unfold FromContext
    rw [h]
    rcases hs : asString (ctx.value SpanKey) with _ | sp <;>
      rcases hl : asLogger (ctx.value LoggerKey) with _ | l <;>
        simp [asString, Logger.with, baseLogger]
  · simp [StartSpan, h, asString, baseLogger, Logger.with]

/-- Witness for the amended C3 at the concrete carrier binding the empty
request id. -/
theorem emptyRequestID_present_asymmetry_witness :
    (⟨"requestID", FieldValue.str ""⟩ : Field) ∈
      (FromContext (WithRequestID Context.background "")).fields ∧
    (StartSpan (WithRequestID Context.background "") "op" "sid-1" 0).1.logger.fields =
      [⟨"span", FieldValue.str "op"⟩, ⟨"spanID", FieldValue.str "sid-1"⟩] :=
  emptyRequestID_present_asymmetry (WithRequestID Context.background "") (by decide)
    "op" "sid-1" 0

/-- C4: with a `currentLogger` override bound, `StartSpan` still builds the
span's bound logger from the process-wide default logger, while `FromContext`
uses the bound override as the base logger. -/
theorem loggerOverride_asymmetry (ctx : Context) (l : Logger)
    (h : asLogger (ctx.value LoggerKey) = some l) (name spanID : String) (now : Int) :
    (∃ fs, FromContext ctx = Logger.with l fs) ∧
    (∃ fs, (StartSpan ctx name spanID now).1.logger = Logger.with baseLogger fs) := by
  constructor
  · unfold FromContext
    rw [h]
    exact ⟨_, rfl⟩
  · exact ⟨_, rfl⟩

/-- Witness for C4 with a custom logger (core id 5) bound as override. -/
theorem loggerOverride_asymmetry_witness :
    (∃ fs, FromContext (Context.withValue Context.background LoggerKey
        (GoValue.logger ⟨5, []⟩)) = Logger.with ⟨5, []⟩ fs) ∧
    (∃ fs, (StartSpan (Context.withValue Context.background LoggerKey
        (GoValue.logger ⟨5, []⟩)) "op" "sid" 0).1.logger = Logger.with baseLogger fs) :=
  loggerOverride_asymmetry (Context.withValue Context.background LoggerKey
    (GoValue.logger ⟨5, []⟩)) ⟨5, []⟩ (by decide) "op" "sid" 0

/-- C5: looking up the request-id key on `WithRequestID ctx id` yields `id`,
and the original carrier is unaffected: the derivation wraps `ctx` unchanged
as the parent of a new node (carriers are immutable values in this model, so
`ctx` and every lookup on it are exactly what they were before). -/
theorem withRequestID_lookup_derive (ctx : Context) (id : String) :
    (WithRequestID ctx id).value RequestIDKey = some (GoValue.str id) ∧
    ∃ k v, WithRequestID ctx id = Context.withValue ctx k v :=
  ⟨by simp [WithRequestID, Context.value], RequestIDKey, GoValue.str id, rfl⟩

/-- C6: deriving a carrier never removes a previously-bound key — for any key
different from the derived one, lookup on the derived carrier equals lookup on
the original; this holds for plain derivation, for `WithRequestID`, and for
the carrier returned by `StartSpan`. -/
theorem derive_frame (ctx : Context) (k1 : ContextKey) :
    (∀ (k2 : ContextKey) (v2 : GoValue), k1 ≠ k2 →
      (Context.withValue ctx k2 v2).value k1 = ctx.value k1) ∧
    (∀ id : String, k1 ≠ RequestIDKey →
      (WithRequestID ctx id).value k1 = ctx.value k1) ∧
    (∀ (name spanID : String) (now : Int), k1 ≠ SpanKey →
      (StartSpan ctx name spanID now).2.value k1 = ctx.value k1) := by
  refine ⟨?_, ?_, ?_⟩
  · intro k2 v2 h
    simp [Context.value, h]
  · intro id h
    simp [WithRequestID, Context.value, h]
  · intro name spanID now h
    simp [StartSpan, Context.value, h]

/-- Witness for C6 at the key `"other"`, distinct from all three bound keys. -/
theorem derive_frame_witness :
    ((Context.withValue Context.background SpanKey (GoValue.str "x")).value "other" =
      Context.background.value "other") ∧
    ((WithRequestID Context.background "rid").value "other" =
      Context.background.value "other") ∧
    ((StartSpan Context.background "op" "sid" 0).2.value "other" =
      Context.background.value "other") :=
  ⟨(derive_frame Context.background "other").1 SpanKey (GoValue.str "x") (by decide),
   (derive_frame Context.background "other").2.1 "rid" (by decide),
   (derive_frame Context.background "other").2.2 "op" "sid" 0 (by decide)⟩

/-- C7: `StartSpan` returns a carrier whose `SpanKey` lookup yields the
freshly generated span id; under the freshness of `uuid.New()` (the generated
id does not occur among the chain's bound span ids) that id differs from the
`currentSpanID` visible in the ancestor carrier and from every span id bound
anywhere in the ancestor chain. -/
theorem startSpan_fresh_spanID (ctx : Context) (name spanID : String) (now : Int)
    (hfresh : spanID ∉ ctx.spanIDs) :
    (StartSpan ctx name spanID now).2.value SpanKey = some (GoValue.str spanID) ∧
    asString (ctx.value SpanKey) ≠ some spanID ∧
    spanID ∉ ctx.spanIDs := by
  refine ⟨by simp [StartSpan, Context.value], ?_, hfresh⟩
  intro h
  rcases hv : ctx.value SpanKey with _ | v
  · rw [hv] at h
    simp [asString] at h
  · rw [hv] at h
    rcases v with a | l | n <;> simp [asString] at h
    exact hfresh (h ▸ value_spanKey_mem ctx a hv)

/-- Witness for C7: a parent carrier with span id `"parent"` and the fresh id
`"sid-1"`. -/
theorem startSpan_fresh_spanID_witness :
    (StartSpan (Context.withValue Context.background SpanKey (GoValue.str "parent"))
        "op" "sid-1" 0).2.value SpanKey = some (GoValue.str "sid-1") ∧
    asString ((Context.withValue Context.background SpanKey (GoValue.str "parent")).value
        SpanKey) ≠ some "sid-1" ∧
    "sid-1" ∉ (Context.withValue Context.background SpanKey (GoValue.str "parent")).spanIDs :=
  startSpan_fresh_spanID (Context.withValue Context.background SpanKey (GoValue.str "parent"))
    "op" "sid-1" 0 (by decide)

/-- C8: with each `SetTag` body an atomic critical section (the span's
exclusive mutex serialises the appends, and `Finish` snapshots under the same
mutex), any interleaved execution of N concurrent callers' tag appends yields
a final tag sequence that is exactly the union (as a multiset) of all appended
pairs — no torn or partial entries — and the single record then emitted by
`Finish` has field count equal to the total number of appended pairs plus the
initial tags plus the `duration` field. -/
theorem setTag_concurrent_snapshot (s : Span) (threads : List (List Field))
    (order : List Field) (hint : Interleave threads order)
    (err : Option (Option String)) (now : Int) (herr : errRefNonNil err = false) :
    List.Perm (runTags s order).fields (s.fields ++ threads.flatten) ∧
    ∃ r, ((runTags s order).finish err now).records = [r] ∧
      r.fields.length = s.fields.length + threads.flatten.length + 1 := by
  have hperm := interleave_perm_flatten hint
  have hf := runTags_eq s order
  constructor
  · rw [hf]
    exact List.Perm.append_left _ hperm
  · obtain ⟨r, rest, hrec, hlog, hfld, hbr⟩ := finish_records_shape (runTags s order) err now
    refine ⟨r, hrec, ?_⟩
    rcases hbr with ⟨he, _⟩ | ⟨_, hrest⟩
    · rw [he] at herr
      cases herr
    · rw [hfld, hrest, hf]
      simp [hperm.length_eq]
      omega

/-- Witness for C8: two callers appending one tag each, interleaved with the
second caller going first. -/
theorem setTag_concurrent_snapshot_witness :
    List.Perm (runTags ⟨baseLogger, 0, []⟩
        [⟨"b", FieldValue.str "2"⟩, ⟨"a", FieldValue.str "1"⟩]).fields
      ((⟨baseLogger, 0, []⟩ : Span).fields ++
        ([[⟨"a", FieldValue.str "1"⟩], [⟨"b", FieldValue.str "2"⟩]] :
          List (List Field)).flatten) ∧
    ∃ r, ((runTags ⟨baseLogger, 0, []⟩
        [⟨"b", FieldValue.str "2"⟩, ⟨"a", FieldValue.str "1"⟩]).finish none 1).records = [r] ∧
      r.fields.length = (⟨baseLogger, 0, []⟩ : Span).fields.length +
        ([[⟨"a", FieldValue.str "1"⟩], [⟨"b", FieldValue.str "2"⟩]] :
          List (List Field)).flatten.length + 1 :=
  setTag_concurrent_snapshot ⟨baseLogger, 0, []⟩
    [[⟨"a", FieldValue.str "1"⟩], [⟨"b", FieldValue.str "2"⟩]]
    [⟨"b", FieldValue.str "2"⟩, ⟨"a", FieldValue.str "1"⟩]
    (Interleave.cons (Interleave.cons Interleave.nil (Interleave2.left Interleave2.nil))
      (Interleave2.right (Interleave2.left Interleave2.nil)))
    none 1 rfl

/-- C9: calling `Finish` twice emits two records (double-finish is neither
detected nor prevented), each built from the tag state at the time of that
call: a tag appended between the two calls appears in the second record but
not in the first. -/
theorem double_finish_two_records (s : Span) (err1 err2 : Option (Option String))
    (now1 now2 : Int) (k : String) (v : FieldValue)
    (hnew : (⟨k, v⟩ : Field) ∉ s.fields) (hdur : k ≠ "duration") (herrk : k ≠ "error") :
    ∃ r1 r2, (s.finish err1 now1).records = [r1] ∧
      (((s.finish err1 now1).span.setTag k v).finish err2 now2).records = [r2] ∧
      (⟨k, v⟩ : Field) ∉ r1.fields ∧
      (⟨k, v⟩ : Field) ∈ r2.fields := by
  obtain ⟨r1, rest1, hrec1, _, hfld1, hbr1⟩ := finish_records_shape s err1 now1
  obtain ⟨r2, rest2, hrec2, _, hfld2, _⟩ :=
    finish_records_shape ((s.finish err1 now1).span.setTag k v) err2 now2
  refine ⟨r1, r2, hrec1, hrec2, ?_, ?_⟩
  · rw [hfld1]
    intro hmem
    rcases List.mem_append.1 hmem with hm | hm
    · exact hnew hm
    · rcases List.mem_cons.1 hm with hm | hm
      · exact hdur (congrArg Field.key hm)
      · rcases hbr1 with ⟨_, m, hrest⟩ | ⟨_, hrest⟩
        · rw [hrest] at hm
          rcases List.mem_singleton.1 hm with hm
          exact herrk (congrArg Field.key hm)
        · rw [hrest] at hm
          cases hm
  · rw [hfld2]
    refine List.mem_append.2 (Or.inl ?_)
    rw [finish_span_eq]
    simp [Span.setTag]

/-- Witness for C9: a fresh span finished twice with a tag `k = "v"` appended
in between. -/
theorem double_finish_two_records_witness :
    ∃ r1 r2, ((Span.mk baseLogger 0 []).finish none 1).records = [r1] ∧
      ((((Span.mk baseLogger 0 []).finish none 1).span.setTag "k"
        (FieldValue.str "v")).finish none 2).records = [r2] ∧
      (⟨"k", FieldValue.str "v"⟩ : Field) ∉ r1.fields ∧
      (⟨"k", FieldValue.str "v"⟩ : Field) ∈ r2.fields :=
  double_finish_two_records ⟨baseLogger, 0, []⟩ none none 1 2 "k" (FieldValue.str "v")
    (by decide) (by decide) (by decide)

/-- C10: `Finish` leaves the span's stored state unchanged — the tag sequence,
the start time, and the bound logger are identical after the call, because the
`duration` (and `error`) fields are appended only to the method's private copy
of the tag slice. -/
theorem finish_preserves_state (s : Span) (err : Option (Option String)) (now : Int) :
    (s.finish err now).span.fields = s.fields ∧
    (s.finish err now).span.start = s.start ∧
    (s.finish err now).span.logger = s.logger := by
  rw [finish_span_eq]
  exact ⟨rfl, rfl, rfl⟩

end Jogger
